import Mathlib

/-!
Verification of the flok walking-companion demo: the Google-style polyline
codec, the selection state machine, the route-fetch pipeline and the match
simulator, embedded shallowly from the two source variants of the app
(`src/unnamed/part_000` holds `decodePolyline`; `src/index.tsx` holds the
five-phase machine with the match simulator).

JavaScript numeric conventions used by the embedding:

* `charCodeAt(i)` for `i` past the end of the string returns NaN.  In the
  decoder inner loop, `NaN - 63` is NaN, `NaN & 0x1f` coerces to 0 (ToInt32
  of NaN is 0) so the accumulator is unchanged, and `NaN >= 0x20` is false
  so the loop stops.  The list-based `readGroup` below models this exactly:
  the `[]` case leaves the accumulator alone and stops.
* `result` is a 32-bit signed integer; `|=` and `<<` act on its 32-bit
  pattern, so the pattern is kept as a natural number below `2 ^ 32` and
  every shifted contribution is reduced `% 2 ^ 32` (shift counts reduce
  `% 32`, as JavaScript shifts do).
* `result >> 1` is the sign-propagating shift, modelled as flooring
  division of the signed reading `toI32` of the pattern, and `~x = -x - 1`.
-/

/-- Signed 32-bit reading of a bit pattern held as a natural number. -/
def toI32 (n : Nat) : Int :=
  if n < 2 ^ 31 then (n : Int) else (n : Int) - 2 ^ 32

/-- One varint group of `decodePolyline` (part_000 lines 16-21 and 26-31):
repeatedly take the next character code, subtract 63, or the low five bits
into `result` at the current shift, and continue while the 0x20
continuation bit is set.  The empty-list case is the out-of-range
`charCodeAt` read described in the module comment: it contributes nothing
and stops the loop. -/
def readGroup : List Nat → Nat → Nat → Nat × List Nat
  | [], _, result => (result, [])
  | c :: rest, shift, result =>
    let b : Int := (c : Int) - 63
    let result2 : Nat := result ||| (((b % 32).toNat <<< (shift % 32)) % (2 ^ 32))
    if 32 ≤ b then readGroup rest (shift + 5) result2 else (result2, rest)

/-- Zig-zag step of the decoder (part_000 lines 22 and 32):
`(result & 1) ? ~(result >> 1) : (result >> 1)` on the 32-bit pattern. -/
def decodeDelta (result : Nat) : Int :=
  if result % 2 = 1 then -((toI32 result).fdiv 2) - 1 else (toI32 result).fdiv 2

/-- Outer loop of `decodePolyline` (part_000 lines 15-36): while characters
remain, read a latitude group and a longitude group, add the zig-zag
decoded deltas to the running accumulators and push the pair.  The loop
consumes at least one character per iteration, so running it with fuel
equal to the length of the remaining input is exact; the fuel-0 case on a
nonempty list is never reached from `decodePolylineAux`. -/
def decodeLoop : Nat → List Nat → Int → Int → List (Int × Int)
  | _, [], _, _ => []
  | 0, _ :: _, _, _ => []
  | fuel + 1, c :: rest, lat, lng =>
    let r1 := readGroup (c :: rest) 0 0
    let dlat := decodeDelta r1.1
    let lat2 := lat + dlat
    let r2 := readGroup r1.2 0 0
    let dlng := decodeDelta r2.1
    let lng2 := lng + dlng
    (lat2, lng2) :: decodeLoop fuel r2.2 lat2 lng2

/-- The body of `decodePolyline` on the sequence of character codes, before the final
division by 1e5: the integer accumulator pairs pushed by the loop. -/
def decodePolylineAux (codes : List Nat) : List (Int × Int) :=
  decodeLoop codes.length codes 0 0

/-- The function `decodePolyline` (part_000 lines 10-38): decode a Google Maps encoded
polyline string into a list of `(lat, lng)` pairs, each accumulator scaled
by `1 / 1e5`.  Characters enter as their UTF-16 code (`charCodeAt`). -/
def decodePolyline (encoded : String) : List (ℚ × ℚ) :=
  (decodePolylineAux (encoded.data.map Char.toNat)).map
    (fun p => ((p.1 : ℚ) / 100000, (p.2 : ℚ) / 100000))

/-- The input class of the unterminated-continuation claim: the string ends
in the middle of a varint group, that is, its final character still has
the 0x20 continuation bit set after the offset of 63 is removed. -/
def endsMidGroup (codes : List Nat) : Bool :=
  match codes.getLast? with
  | some c => decide (32 ≤ (c : Int) - 63)
  | none => false

/-- The standard reference fixture for the encoding. -/
def fixtureStr : String :=
  "_p~iF~ps|U_ulLnnqC_mqNvxq`@"

/-- The five interaction phases (index.tsx line 20). -/
inductive SelectionState
  | selectingStart
  | selectingEnd
  | pathConfirmed
  | searchingForMatch
  | matchFound
deriving DecidableEq, Repr

/-- A map coordinate as the pair `(lat, lng)` taken from `e.latlng`. -/
abbrev Coord := ℚ × ℚ

/-- The kind argument of `createMarker` (index.tsx line 181). -/
inductive MarkerKind
  | start
  | endpoint
deriving DecidableEq, Repr

/-- A Leaflet marker, modelled by the data `createMarker` places it with. -/
structure Marker where
  pos : Coord
  kind : MarkerKind
deriving DecidableEq, Repr

/-- One element of the provider `paths` array, in the fields the app reads:
`points.coordinates` (GraphHopper `[lng, lat]` pairs) and `time`
(milliseconds). -/
structure RoutePath where
  coordinates : List (ℚ × ℚ)
  time : ℚ
deriving DecidableEq, Repr

/-- Outcome of the network call inside `fetchRoute` (index.tsx 111-115):
the `fetch` promise rejects, or resolves with a non-ok status, or resolves
with a JSON body whose `paths` array is as given (absent modelled as
empty). -/
inductive RouteResponse
  | transportFailure
  | httpFailure (status : Nat)
  | providerPaths (paths : List RoutePath)
deriving DecidableEq, Repr

/-- The React state of `App` (index.tsx lines 11-21): map handle presence,
marker list, drawn polyline, ETA (kept as the rounded minute count that the
display string interpolates), loading flag, match counter, interval handle
presence, and the selection phase. -/
structure AppState where
  mapInstance : Bool
  markers : List Marker
  path : Option (List (ℚ × ℚ))
  eta : Option Int
  isLoading : Bool
  matchedUsersCount : Nat
  matchInterval : Bool
  selectionState : SelectionState
deriving DecidableEq, Repr

/-- The handler `handleMapClick` together with the guard of the effect that attaches it
(index.tsx lines 43-67): no handler is attached without a map, while
loading, or in the two match phases; an attached handler acts only in the
two selecting phases, replacing the marker list with the single start
marker or appending the end marker. -/
def handleMapClick (s : AppState) (c : Coord) : AppState :=
  if s.mapInstance = false ∨ s.isLoading = true ∨
      s.selectionState = SelectionState.searchingForMatch ∨
      s.selectionState = SelectionState.matchFound then s
  else
    match s.selectionState with
    | SelectionState.selectingStart =>
      { s with markers := [⟨c, MarkerKind.start⟩],
               selectionState := SelectionState.selectingEnd }
    | SelectionState.selectingEnd =>
      { s with markers := s.markers ++ [⟨c, MarkerKind.endpoint⟩],
               selectionState := SelectionState.pathConfirmed }
    | _ => s

/-- The function `handleReset` (index.tsx lines 70-95): bail out without a map;
otherwise clear the interval, the markers, the path, the ETA and the match
count, return to `SELECTING_START` and drop the loading flag. -/
def handleReset (s : AppState) : AppState :=
  if s.mapInstance = false then s
  else
    { s with matchInterval := false, markers := [], path := none,
             eta := none, matchedUsersCount := 0,
             selectionState := SelectionState.selectingStart,
             isLoading := false }

/-- The state every path through `handleReset` with a map produces. -/
def clearedState : AppState :=
  { mapInstance := true, markers := [], path := none, eta := none,
    isLoading := false, matchedUsersCount := 0, matchInterval := false,
    selectionState := SelectionState.selectingStart }

/-- The call `setIsLoading(true)` at the top of `fetchRoute` (index.tsx line 104),
the synchronous prefix of the fetch before the first `await`. -/
def fetchStart (s : AppState) : AppState := { s with isLoading := true }

/-- JavaScript `Math.round`: round half toward positive infinity. -/
def mathRound (x : ℚ) : Int := ⌊x + 1 / 2⌋

/-- The alert text of the catch branch of `fetchRoute` (index.tsx 140). -/
def routeAlertText : String :=
  "مسیریابی با خطا مواجه شد. لطفا نقاط دیگری را امتحان کنید."

/-- Completion of `fetchRoute` (index.tsx lines 105-144): the continuation
after the `await`s, applied to the state current at resolution time.  A
response with a nonempty `paths` array swaps each `[lng, lat]` pair into
`[lat, lng]`, stores the polyline and the minute count
`Math.round(route.time / 60000)`; every other outcome (rejected fetch, the
non-ok status thrown at line 113, the empty or missing `paths` thrown at
line 136) reaches the catch, which alerts and calls `handleReset()`.  The
`finally` clears the loading flag either way.  Returns the next state and
the alerts shown. -/
def fetchRouteResult (s : AppState) (resp : RouteResponse) :
    AppState × List String :=
  match resp with
  | RouteResponse.providerPaths (route :: _) =>
    let decodedPath := route.coordinates.map (fun p => (p.2, p.1))
    let durationMinutes := mathRound (route.time / 60000)
    ({ s with path := some decodedPath, eta := some durationMinutes,
              isLoading := false }, [])
  | _ => ({ handleReset s with isLoading := false }, [routeAlertText])

/-- The outcomes `fetchRoute` treats as failure: everything except a
response carrying at least one path. -/
def isRouteFailure (resp : RouteResponse) : Bool :=
  match resp with
  | RouteResponse.providerPaths (_ :: _) => false
  | _ => true

/-- The handler `handleConfirm` (index.tsx line 192). -/
def handleConfirm (s : AppState) : AppState :=
  { s with selectionState := SelectionState.searchingForMatch }

/-- The effect entering `SEARCHING_FOR_MATCH` (index.tsx lines 151-157):
reset the counter to 0 and start the interval timer. -/
def startSearchEffect (s : AppState) : AppState :=
  if s.selectionState = SelectionState.searchingForMatch then
    { s with matchedUsersCount := 0, matchInterval := true }
  else s

/-- One firing of the interval callback (index.tsx lines 157-169): if the
timer is stopped nothing fires; otherwise increment the counter, and on
reaching 3 clear the interval and move to `MATCH_FOUND`. -/
def matchTick (s : AppState) : AppState :=
  if s.matchInterval = false then s
  else
    let newCount := s.matchedUsersCount + 1
    if 3 ≤ newCount then
      { s with matchedUsersCount := newCount, matchInterval := false,
               selectionState := SelectionState.matchFound }
    else { s with matchedUsersCount := newCount }

/-- A concrete `PATH_CONFIRMED` state with two markers, before the fetch. -/
def pathState : AppState :=
  { mapInstance := true,
    markers := [⟨(1, 2), MarkerKind.start⟩, ⟨(3, 4), MarkerKind.endpoint⟩],
    path := none, eta := none, isLoading := false, matchedUsersCount := 0,
    matchInterval := false, selectionState := SelectionState.pathConfirmed }

/-- State `pathState` with the route fetch in flight. -/
def loadingState : AppState := { pathState with isLoading := true }

/-- A concrete `SEARCHING_FOR_MATCH` state with data in every field. -/
def busyState : AppState :=
  { mapInstance := true,
    markers := [⟨(1, 2), MarkerKind.start⟩, ⟨(3, 4), MarkerKind.endpoint⟩],
    path := some [(1, 2), (3, 4)], eta := some 7, isLoading := false,
    matchedUsersCount := 2, matchInterval := true,
    selectionState := SelectionState.searchingForMatch }

/-- The empty encoded string. -/
def emptyStr : String := ""

/-- A one-character input whose only group is unterminated: the code of
the underscore is 95, so 95 - 63 = 32 has the continuation bit set. -/
def midGroupStr : String := "_"

/-- Modelled from the spec: the reference polyline encoder is not part of
this repository; the spec gives its scheme (per-component deltas, zig-zag,
5-bit groups low bits first with a 0x20 continuation bit, offset 63,
components scaled by 1e5).  Zig-zag: a nonnegative delta becomes twice
itself, a negative delta the complement of twice itself. -/
def zigzagEncode (d : Int) : Nat :=
  (if d < 0 then 2 * (-d) - 1 else 2 * d).toNat

/-- Modelled from the spec: the 5-bit groups of one zig-zag value, low bits
first, each group offset by 63, the 0x20 bit marking continuation. -/
def encodeUInt (v : Nat) : List Nat :=
  if h : v < 32 then [v + 63] else (32 + v % 32 + 63) :: encodeUInt (v / 32)
termination_by v
decreasing_by exact Nat.div_lt_self (by omega) (by omega)

/-- Modelled from the spec: one signed delta, zig-zag then groups. -/
def encodeSigned (d : Int) : List Nat := encodeUInt (zigzagEncode d)

/-- Modelled from the spec: the scaled integer points as deltas from the
previous point, latitude before longitude. -/
def encodePoints : Int → Int → List (Int × Int) → List Nat
  | _, _, [] => []
  | plat, plng, (lat, lng) :: rest =>
    encodeSigned (lat - plat) ++ encodeSigned (lng - plng) ++
      encodePoints lat lng rest

/-- Modelled from the spec: the reference encoder on rational coordinates:
scale each component by 1e5, round to the nearest integer, delta-encode. -/
def referenceEncode (pts : List (ℚ × ℚ)) : List Nat :=
  encodePoints 0 0
    (pts.map (fun p => (mathRound (p.1 * 100000), mathRound (p.2 * 100000))))

/-! ## Bit-level helper lemmas -/

/-- Oring a value of at most `n` bits with a contribution shifted past bit
`n` is plain addition. -/
theorem lor_mul_pow_add (n : Nat) :
    ∀ r m : Nat, r < 2 ^ n → r ||| (m * 2 ^ n) = r + m * 2 ^ n := by
  induction n with
  | zero =>
    intro r m h
    have hr0 : r = 0 := by omega
    subst hr0
    simp [Nat.zero_or]
  | succ n ih =>
    intro r m h
    have hr : r = Nat.bit (decide (r % 2 = 1)) (r >>> 1) :=
      (Nat.bit_decide_mod_two_eq_one_shiftRight_one r).symm
    have hm : m * 2 ^ (n + 1) = Nat.bit false (m * 2 ^ n) := by
      simp [Nat.bit_val]
      ring
    have hq : r >>> 1 < 2 ^ n := by
      rw [Nat.shiftRight_one]
      have h2 : (2 : Nat) ^ (n + 1) = 2 * 2 ^ n := by ring
      omega
    conv_lhs => rw [hr, hm]
    rw [Nat.lor_bit, ih _ m hq]
    simp only [Bool.or_false, Nat.bit_val, Nat.shiftRight_one]
    have h2 : (2 : Nat) ^ (n + 1) = 2 * 2 ^ n := by ring
    rw [h2]
    rcases Nat.mod_two_eq_zero_or_one r with h0 | h0 <;> simp [h0] <;> ring_nf <;> omega

/-- Flooring division of a natural number read as an integer. -/
theorem natCast_fdiv_two (m : Nat) : ((m : Int)).fdiv 2 = ((m / 2 : Nat) : Int) := by
  cases m <;> rfl

/-- On patterns below `2 ^ 31` the sign-propagating shift of `decodeDelta`
is natural-number halving. -/
theorem decodeDelta_eq_of_lt (v : Nat) (h : v < 2 ^ 31) :
    decodeDelta v =
      if v % 2 = 1 then -((v / 2 : Nat) : Int) - 1 else ((v / 2 : Nat) : Int) := by
  unfold decodeDelta toI32
  rw [if_pos h, natCast_fdiv_two]

/-- Zig-zag values of deltas below `2 ^ 30` in magnitude fit in 31 bits. -/
theorem zigzagEncode_lt (d : Int) (h1 : -(2 ^ 30) < d) (h2 : d < 2 ^ 30) :
    zigzagEncode d < 2 ^ 31 := by
  have e30 : (2 : Int) ^ 30 = 1073741824 := by norm_num
  have e31 : (2 : Nat) ^ 31 = 2147483648 := by norm_num
  unfold zigzagEncode
  split <;> omega

/-- The decoder zig-zag step inverts the encoder zig-zag step. -/
theorem decodeDelta_zigzagEncode (d : Int) (h1 : -(2 ^ 30) < d) (h2 : d < 2 ^ 30) :
    decodeDelta (zigzagEncode d) = d := by
  rw [decodeDelta_eq_of_lt _ (zigzagEncode_lt d h1 h2)]
  have e30 : (2 : Int) ^ 30 = 1073741824 := by norm_num
  unfold zigzagEncode
  split <;> split <;> push_cast <;> omega

theorem encodeUInt_ne_nil (v : Nat) : encodeUInt v ≠ [] := by
  rw [encodeUInt]
  split <;> simp

/-- The reader `readGroup` inverts `encodeUInt`, for any accumulator state whose bits
sit strictly below the current shift and any value that keeps the final
pattern inside 31 bits. -/
theorem readGroup_encodeUInt (v : Nat) (shift result : Nat) (rest : List Nat)
    (hs : shift < 32) (hr : result < 2 ^ shift)
    (hb : v * 2 ^ shift + result < 2 ^ 31) :
    readGroup (encodeUInt v ++ rest) shift result = (v * 2 ^ shift + result, rest) := by
  have h3132 : (2 : Nat) ^ 31 < 2 ^ 32 := by norm_num
  rw [encodeUInt]
  split
  case isTrue h =>
    simp only [List.cons_append, List.nil_append, readGroup]
    have hbv : ((v + 63 : Nat) : Int) - 63 = (v : Int) := by push_cast; ring
    have hmod : (((v : Int)) % 32).toNat = v := by
      rw [Int.emod_eq_of_lt (by positivity) (by exact_mod_cast h)]
      exact Int.toNat_ofNat v
    have hshift : shift % 32 = shift := Nat.mod_eq_of_lt hs
    have hm2 : (v <<< shift) % 2 ^ 32 = v * 2 ^ shift := by
      rw [Nat.shiftLeft_eq]
      exact Nat.mod_eq_of_lt (by omega)
    have hif : ¬ (32 ≤ (v : Int)) := by exact_mod_cast Nat.not_le.mpr h
    rw [hbv, hshift, hmod, hm2, lor_mul_pow_add shift result v hr, if_neg hif]
    simp [Nat.add_comm]
  case isFalse h =>
    simp only [List.cons_append, readGroup]
    have hbv : ((32 + v % 32 + 63 : Nat) : Int) - 63 = 32 + ((v % 32 : Nat) : Int) := by
      push_cast; ring
    have hmod : ((32 + ((v % 32 : Nat) : Int)) % 32).toNat = v % 32 := by
      have : (32 + ((v % 32 : Nat) : Int)) % 32 = ((v % 32 : Nat) : Int) := by
        have hlt : v % 32 < 32 := Nat.mod_lt v (by omega)
        push_cast
        omega
      rw [this]
      exact Int.toNat_ofNat (v % 32)
    have hshift : shift % 32 = shift := Nat.mod_eq_of_lt hs
    have hmle : v % 32 * 2 ^ shift ≤ v * 2 ^ shift :=
      Nat.mul_le_mul_right _ (Nat.mod_le v 32)
    have hm2 : ((v % 32) <<< shift) % 2 ^ 32 = v % 32 * 2 ^ shift := by
      rw [Nat.shiftLeft_eq]
      exact Nat.mod_eq_of_lt (by omega)
    have hif : (32 : Int) ≤ 32 + ((v % 32 : Nat) : Int) := by omega
    have hpow : (2 : Nat) ^ (shift + 5) = 2 ^ shift * 32 := by
      rw [pow_add]; norm_num
    have hs5 : shift + 5 < 32 := by
      have h32 : 2 ^ (shift + 5) ≤ v * 2 ^ shift := by
        rw [hpow, Nat.mul_comm (2 ^ shift) 32]
        exact Nat.mul_le_mul (by omega) le_rfl
      have hlt31 : 2 ^ (shift + 5) < 2 ^ 31 := by omega
      have := (Nat.pow_lt_pow_iff_right (a := 2) (by omega)).mp hlt31
      omega
    have hr5 : result + v % 32 * 2 ^ shift < 2 ^ (shift + 5) := by
      have hm31 : v % 32 ≤ 31 := by omega
      calc result + v % 32 * 2 ^ shift
          < 2 ^ shift + v % 32 * 2 ^ shift := by omega
        _ ≤ 2 ^ shift + 31 * 2 ^ shift := by
            have := Nat.mul_le_mul_right (2 ^ shift) hm31
            omega
        _ = 2 ^ (shift + 5) := by rw [hpow]; ring
    have hkey : v / 32 * 2 ^ (shift + 5) + (result + v % 32 * 2 ^ shift)
        = v * 2 ^ shift + result := by
      have hv : 32 * (v / 32) + v % 32 = v := Nat.div_add_mod v 32
      calc v / 32 * 2 ^ (shift + 5) + (result + v % 32 * 2 ^ shift)
          = (32 * (v / 32) + v % 32) * 2 ^ shift + result := by rw [hpow]; ring
        _ = v * 2 ^ shift + result := by rw [hv]
    have hb5 : v / 32 * 2 ^ (shift + 5) + (result + v % 32 * 2 ^ shift) < 2 ^ 31 := by
      rw [hkey]; exact hb
    rw [hbv, hshift, hmod, hm2, lor_mul_pow_add shift result (v % 32) hr, if_pos hif]
    simp only [List.append_eq]
    rw [readGroup_encodeUInt (v / 32) (shift + 5) (result + v % 32 * 2 ^ shift) rest hs5 hr5 hb5]
    rw [hkey]
termination_by v
decreasing_by exact Nat.div_lt_self (by omega) (by omega)

/-- The reader `readGroup` at the start of a group, as the decoder always calls it. -/
theorem readGroup_encode0 (v : Nat) (rest : List Nat) (h : v < 2 ^ 31) :
    readGroup (encodeUInt v ++ rest) 0 0 = (v, rest) := by
  have := readGroup_encodeUInt v 0 0 rest (by omega) (by norm_num) (by simpa using h)
  simpa using this

/-- The decoder loop inverts the delta encoding of the reference encoder,
for coordinate sequences inside the geographic grid (`|lat| ≤ 90 * 1e5`,
`|lng| ≤ 180 * 1e5`, so every delta stays far below 31 bits) and any fuel
at least the length of the code list. -/
theorem decodeLoop_encodePoints (pts : List (Int × Int)) :
    ∀ (plat plng : Int) (fuel : Nat),
    (∀ q ∈ pts, (-9000000 ≤ q.1 ∧ q.1 ≤ 9000000) ∧
      (-18000000 ≤ q.2 ∧ q.2 ≤ 18000000)) →
    -9000000 ≤ plat → plat ≤ 9000000 → -18000000 ≤ plng → plng ≤ 18000000 →
    (encodePoints plat plng pts).length ≤ fuel →
    decodeLoop fuel (encodePoints plat plng pts) plat plng = pts := by
  induction pts with
  | nil =>
    intro plat plng fuel _ _ _ _ _ _
    cases fuel <;> rfl
  | cons p rest ih =>
    obtain ⟨lat, lng⟩ := p
    intro plat plng fuel hb h1 h2 h3 h4 hfuel
    have hblat := (hb (lat, lng) (by simp)).1
    have hblng := (hb (lat, lng) (by simp)).2
    simp only at hblat hblng
    have e30 : (2 : Int) ^ 30 = 1073741824 := by norm_num
    have hd1a : -(2 ^ 30) < lat - plat := by omega
    have hd1b : lat - plat < 2 ^ 30 := by omega
    have hd2a : -(2 ^ 30) < lng - plng := by omega
    have hd2b : lng - plng < 2 ^ 30 := by omega
    have hv1 : zigzagEncode (lat - plat) < 2 ^ 31 := zigzagEncode_lt _ hd1a hd1b
    have hv2 : zigzagEncode (lng - plng) < 2 ^ 31 := zigzagEncode_lt _ hd2a hd2b
    obtain ⟨c, cs1, hc⟩ : ∃ c cs1,
        encodeUInt (zigzagEncode (lat - plat)) = c :: cs1 := by
      cases hE : encodeUInt (zigzagEncode (lat - plat)) with
      | nil => exact absurd hE (encodeUInt_ne_nil _)
      | cons c cs1 => exact ⟨c, cs1, rfl⟩
    have hlen : (encodePoints plat plng ((lat, lng) :: rest)).length
        = (encodeUInt (zigzagEncode (lat - plat))).length
          + ((encodeUInt (zigzagEncode (lng - plng))).length
            + (encodePoints lat lng rest).length) := by
      simp [encodePoints, encodeSigned]
    have hlen2 : 0 < (encodeUInt (zigzagEncode (lng - plng))).length :=
      List.length_pos.mpr (encodeUInt_ne_nil _)
    have hlen1 : 0 < (encodeUInt (zigzagEncode (lat - plat))).length := by
      rw [hc]; simp
    simp only [encodePoints, encodeSigned]
    rw [List.append_assoc, hc, List.cons_append]
    cases fuel with
    | zero =>
      exfalso
      rw [hlen] at hfuel
      omega
    | succ f =>
      simp only [decodeLoop]
      rw [← List.cons_append, ← hc, readGroup_encode0 _ _ hv1]
      dsimp only
      rw [decodeDelta_zigzagEncode _ hd1a hd1b]
      rw [readGroup_encode0 _ _ hv2]
      dsimp only
      rw [decodeDelta_zigzagEncode _ hd2a hd2b]
      have hlat : plat + (lat - plat) = lat := by ring
      have hlng : plng + (lng - plng) = lng := by ring
      rw [hlat, hlng]
      have hfuel2 : (encodePoints lat lng rest).length ≤ f := by
        rw [hlen] at hfuel
        omega
      rw [ih lat lng f (fun q hq => hb q (List.mem_cons_of_mem _ hq))
        (by omega) (by omega) (by omega) (by omega) hfuel2]

/-- Rounding with `Math.round` after scaling moves a rational by at most half a grid
step, hence at most `1e-5` after scaling back. -/
theorem mathRound_scale_close (x : ℚ) :
    |((mathRound (x * 100000) : ℚ)) / 100000 - x| ≤ 1 / 100000 := by
  have h1 : ((⌊x * 100000 + 1 / 2⌋ : Int) : ℚ) ≤ x * 100000 + 1 / 2 :=
    Int.floor_le _
  have h2 : x * 100000 + 1 / 2 - 1 < ((⌊x * 100000 + 1 / 2⌋ : Int) : ℚ) :=
    Int.sub_one_lt_floor _
  unfold mathRound
  rw [abs_le]
  constructor <;> linarith

/-- Pointwise closeness of the rounded grid points to the originals. -/
theorem forall₂_round_close (pts : List (ℚ × ℚ)) :
    List.Forall₂
      (fun a b => |a.1 - b.1| ≤ 1 / 100000 ∧ |a.2 - b.2| ≤ 1 / 100000)
      (pts.map (fun p => (((mathRound (p.1 * 100000) : Int) : ℚ) / 100000,
        ((mathRound (p.2 * 100000) : Int) : ℚ) / 100000))) pts := by
  induction pts with
  | nil => simp
  | cons p rest ih =>
    simp only [List.map_cons]
    exact List.Forall₂.cons ⟨mathRound_scale_close p.1, mathRound_scale_close p.2⟩ ih

/-! ## State machine helper lemmas -/

/-- A click in any state other than the two selecting phases is a no-op:
either the guard of the effect drops it, or the handler body ignores it. -/
theorem handleMapClick_notSelecting (s : AppState) (c : Coord)
    (h1 : s.selectionState ≠ SelectionState.selectingStart)
    (h2 : s.selectionState ≠ SelectionState.selectingEnd) :
    handleMapClick s c = s := by
  unfold handleMapClick
  split
  · rfl
  · split <;> simp_all

/-- Click sequences starting in `PATH_CONFIRMED` change nothing. -/
theorem foldl_handleMapClick_pathConfirmed (cs : List Coord) :
    ∀ s : AppState, s.selectionState = SelectionState.pathConfirmed →
    cs.foldl handleMapClick s = s := by
  induction cs with
  | nil => intro s _; rfl
  | cons c cs ih =>
    intro s hs
    rw [List.foldl_cons,
      handleMapClick_notSelecting s c (by simp [hs]) (by simp [hs])]
    exact ih s hs

/-- A tick with the interval cleared does nothing. -/
theorem matchTick_stopped (s : AppState) (h : s.matchInterval = false) :
    matchTick s = s := by
  unfold matchTick
  rw [h]
  simp

/-- Iterated ticks with the interval cleared do nothing. -/
theorem iterate_matchTick_stopped (m : Nat) :
    ∀ s : AppState, s.matchInterval = false → matchTick^[m] s = s := by
  induction m with
  | zero => intro s _; rfl
  | succ m ih =>
    intro s h
    rw [Function.iterate_succ_apply, matchTick_stopped s h]
    exact ih s h

/-- Resetting via `handleReset` with a map present always produces `clearedState`. -/
theorem handleReset_eq (s : AppState) (h : s.mapInstance = true) :
    handleReset s = clearedState := by
  obtain ⟨mi, mk, pa, et, il, mc, mt, ss⟩ := s
  simp only at h
  subst h
  simp [handleReset, clearedState]

/-- Closed form of the interval iteration from a freshly started search
state: the counter climbs 1, 2, 3; at 3 the interval is cleared and the
phase flips to `MATCH_FOUND`; afterwards nothing changes. -/
theorem matchTick_iterate (s : AppState) (h1 : s.matchInterval = true)
    (h2 : s.matchedUsersCount = 0) (k : Nat) :
    matchTick^[k] s =
      if k < 3 then { s with matchedUsersCount := k }
      else { s with matchedUsersCount := 3, matchInterval := false,
                    selectionState := SelectionState.matchFound } := by
  obtain ⟨mi, mk, pa, et, il, mc, mt, ss⟩ := s
  simp only at h1 h2
  subst h1
  subst h2
  induction k with
  | zero => simp
  | succ k ih =>
    rw [Function.iterate_succ_apply', ih]
    rcases Nat.lt_or_ge k 3 with hk | hk
    · rcases Nat.lt_or_ge (k + 1) 3 with hk1 | hk1
      · simp [matchTick, hk, hk1, show ¬ 3 ≤ k + 1 from by omega]
      · have hk3 : k + 1 = 3 := by omega
        simp [matchTick, hk, show ¬ (k + 1 < 3) from by omega, hk3]
    · have hk' : ¬ k < 3 := by omega
      have hk1' : ¬ k + 1 < 3 := by omega
      simp [matchTick, hk', hk1']

/-- Rounding with `Math.round` keeps values inside symmetric integer bounds. -/
theorem mathRound_bound (x : ℚ) (B : Int) (h1 : -(B : ℚ) ≤ x) (h2 : x ≤ (B : ℚ)) :
    -B ≤ mathRound x ∧ mathRound x ≤ B := by
  unfold mathRound
  constructor
  · have hf := Int.sub_one_lt_floor (x + 1 / 2)
    have hc : ((-B - 1 : Int) : ℚ) < ((⌊x + 1 / 2⌋ : Int) : ℚ) := by
      push_cast
      linarith
    have hi : -B - 1 < ⌊x + 1 / 2⌋ := by exact_mod_cast hc
    omega
  · have hf := Int.floor_le (x + 1 / 2)
    have hc : ((⌊x + 1 / 2⌋ : Int) : ℚ) < ((B + 1 : Int) : ℚ) := by
      push_cast
      linarith
    have hi : ⌊x + 1 / 2⌋ < B + 1 := by exact_mod_cast hc
    omega

/-! ## Claim theorems -/

/-- C1: starting from `SelectingStart` with no markers, the map present and
the loading flag down, any click sequence leaves at most two markers on the
machine: the first click stores exactly the start marker, the second click
appends exactly the end marker, and no click is accepted while the loading
flag is set or in `PathConfirmed`, `SearchingForMatch` or `MatchFound`. -/
theorem clickSequenceAtMostTwoMarkers (s s2 : AppState) (c : Coord)
    (cs : List Coord)
    (h1 : s.selectionState = SelectionState.selectingStart)
    (h2 : s.markers = []) (h3 : s.isLoading = false)
    (h4 : s.mapInstance = true)
    (h5 : s2.isLoading = true ∨ s2.selectionState = SelectionState.pathConfirmed ∨
      s2.selectionState = SelectionState.searchingForMatch ∨
      s2.selectionState = SelectionState.matchFound) :
    (cs.foldl handleMapClick s).markers.length ≤ 2
  ∧ (cs.foldl handleMapClick s).markers
      = List.zipWith Marker.mk (cs.take 2) [MarkerKind.start, MarkerKind.endpoint]
  ∧ (cs.foldl handleMapClick s).selectionState
      = (if cs.length = 0 then SelectionState.selectingStart
         else if cs.length = 1 then SelectionState.selectingEnd
         else SelectionState.pathConfirmed)
  ∧ handleMapClick s2 c = s2 := by
  have hignore : handleMapClick s2 c = s2 := by
    rcases h5 with h | h | h | h
    · simp [handleMapClick, h]
    · exact handleMapClick_notSelecting s2 c (by simp [h]) (by simp [h])
    · simp [handleMapClick, h]
    · simp [handleMapClick, h]
  have hclick1 : ∀ c1 : Coord, handleMapClick s c1
      = { s with markers := [⟨c1, MarkerKind.start⟩],
                 selectionState := SelectionState.selectingEnd } := by
    intro c1
    simp [handleMapClick, h1, h3, h4]
  match cs with
  | [] =>
    refine ⟨?_, ?_, ?_, hignore⟩ <;> simp [h1, h2]
  | [c1] =>
    rw [List.foldl_cons, List.foldl_nil, hclick1 c1]
    refine ⟨?_, ?_, ?_, hignore⟩ <;> simp
  | c1 :: c2 :: cs' =>
    rw [List.foldl_cons, List.foldl_cons, hclick1 c1]
    have hclick2 : handleMapClick
        { s with markers := [⟨c1, MarkerKind.start⟩],
                 selectionState := SelectionState.selectingEnd } c2
        = { s with markers := [⟨c1, MarkerKind.start⟩, ⟨c2, MarkerKind.endpoint⟩],
                   selectionState := SelectionState.pathConfirmed } := by
      simp [handleMapClick, h3, h4]
    rw [hclick2, foldl_handleMapClick_pathConfirmed cs' _ rfl]
    refine ⟨?_, ?_, ?_, hignore⟩ <;> simp

/-- C1 witness: the concrete cleared state, a three-click sequence and a
blocked state. -/
theorem clickSequenceAtMostTwoMarkers_witness :
    clearedState.selectionState = SelectionState.selectingStart
  ∧ clearedState.markers = [] ∧ clearedState.isLoading = false
  ∧ clearedState.mapInstance = true
  ∧ (loadingState.isLoading = true ∨
      loadingState.selectionState = SelectionState.pathConfirmed ∨
      loadingState.selectionState = SelectionState.searchingForMatch ∨
      loadingState.selectionState = SelectionState.matchFound)
  ∧ (([((1 : ℚ), (2 : ℚ)), (3, 4), (5, 6)].foldl handleMapClick clearedState).markers.length ≤ 2
  ∧ ([((1 : ℚ), (2 : ℚ)), (3, 4), (5, 6)].foldl handleMapClick clearedState).markers
      = List.zipWith Marker.mk ([((1 : ℚ), (2 : ℚ)), (3, 4), (5, 6)].take 2)
          [MarkerKind.start, MarkerKind.endpoint]
  ∧ ([((1 : ℚ), (2 : ℚ)), (3, 4), (5, 6)].foldl handleMapClick clearedState).selectionState
      = (if ([((1 : ℚ), (2 : ℚ)), (3, 4), (5, 6)] : List Coord).length = 0
         then SelectionState.selectingStart
         else if ([((1 : ℚ), (2 : ℚ)), (3, 4), (5, 6)] : List Coord).length = 1
         then SelectionState.selectingEnd
         else SelectionState.pathConfirmed)
  ∧ handleMapClick loadingState ((9 : ℚ), (9 : ℚ)) = loadingState) :=
  ⟨rfl, rfl, rfl, rfl, Or.inl rfl,
    clickSequenceAtMostTwoMarkers clearedState loadingState ((9 : ℚ), (9 : ℚ))
      [((1 : ℚ), (2 : ℚ)), (3, 4), (5, 6)] rfl rfl rfl rfl (Or.inl rfl)⟩

/-- C2: from any state with the map present, in any phase, `handleReset`
yields `SelectingStart` with no markers, no route, no ETA, the match
counter at 0, the loading flag down and the interval timer cleared. -/
theorem resetYieldsCleared (s : AppState) (h : s.mapInstance = true) :
    handleReset s = clearedState :=
  handleReset_eq s h

/-- C2 witness: reset of a busy searching state. -/
theorem resetYieldsCleared_witness :
    busyState.mapInstance = true ∧ handleReset busyState = clearedState :=
  ⟨rfl, resetYieldsCleared busyState rfl⟩

/-- C3: every failing route fetch — transport failure, non-success status,
or a provider response carrying no route — resolves from `PathConfirmed`
to the fully reset state and shows the human-readable alert: markers
cleared, no route stored, no partial state left. -/
theorem fetchFailureFullyResets (s : AppState) (resp : RouteResponse)
    (h1 : s.mapInstance = true)
    (_h2 : s.selectionState = SelectionState.pathConfirmed)
    (h3 : isRouteFailure resp = true) :
    fetchRouteResult s resp = (clearedState, [routeAlertText]) := by
  have hr : handleReset s = clearedState := handleReset_eq s h1
  rcases resp with _ | st | paths
  · simp [fetchRouteResult, hr, clearedState]
  · simp [fetchRouteResult, hr, clearedState]
  · cases paths with
    | nil => simp [fetchRouteResult, hr, clearedState]
    | cons p ps => simp [isRouteFailure] at h3

/-- C3 witness: a no-route provider response resolving over the in-flight
confirmed state. -/
theorem fetchFailureFullyResets_witness :
    loadingState.mapInstance = true
  ∧ loadingState.selectionState = SelectionState.pathConfirmed
  ∧ isRouteFailure (RouteResponse.providerPaths []) = true
  ∧ fetchRouteResult loadingState (RouteResponse.providerPaths [])
      = (clearedState, [routeAlertText]) :=
  ⟨rfl, rfl, rfl, fetchFailureFullyResets loadingState _ rfl rfl rfl⟩

/-- C4: counterexample — issue a fetch from the confirmed `pathState`,
reset while it is in flight, then let it resolve successfully: the claim
says the stale result is discarded with no polyline or ETA re-stored, but
the completion stores both (only the phase and the markers stay reset). -/
theorem staleCompletionRestoresRoute :
    (fetchRouteResult (handleReset (fetchStart pathState))
        (RouteResponse.providerPaths [⟨[(51, 35), (52, 36)], 600000⟩])).1.selectionState
      = SelectionState.selectingStart
  ∧ (fetchRouteResult (handleReset (fetchStart pathState))
        (RouteResponse.providerPaths [⟨[(51, 35), (52, 36)], 600000⟩])).1.markers = []
  ∧ (fetchRouteResult (handleReset (fetchStart pathState))
        (RouteResponse.providerPaths [⟨[(51, 35), (52, 36)], 600000⟩])).1.path
      = some [((35 : ℚ), (51 : ℚ)), (36, 52)]
  ∧ (fetchRouteResult (handleReset (fetchStart pathState))
        (RouteResponse.providerPaths [⟨[(51, 35), (52, 36)], 600000⟩])).1.eta
      = some 10 := by
  refine ⟨rfl, rfl, rfl, ?_⟩
  show some (mathRound ((600000 : ℚ) / 60000)) = some 10
  norm_num [mathRound, Int.floor_eq_iff]

/-- C4 (amended): when a fetch issued from a state with the map present is
followed by a reset and then resolves successfully, the phase stays
`SelectingStart` and the markers stay cleared, but the stale completion
stores the polyline and the ETA of the dead episode — the success
continuation applies its result with no phase or generation check. -/
theorem staleCompletionOutcome (s : AppState) (route : RoutePath)
    (ps : List RoutePath) (h : s.mapInstance = true) :
    (fetchRouteResult (handleReset (fetchStart s))
        (RouteResponse.providerPaths (route :: ps))).1.selectionState
      = SelectionState.selectingStart
  ∧ (fetchRouteResult (handleReset (fetchStart s))
        (RouteResponse.providerPaths (route :: ps))).1.markers = []
  ∧ (fetchRouteResult (handleReset (fetchStart s))
        (RouteResponse.providerPaths (route :: ps))).1.path
      = some (route.coordinates.map (fun p => (p.2, p.1)))
  ∧ (fetchRouteResult (handleReset (fetchStart s))
        (RouteResponse.providerPaths (route :: ps))).1.eta
      = some (mathRound (route.time / 60000)) := by
  have hr : handleReset (fetchStart s) = clearedState :=
    handleReset_eq _ (by simp [fetchStart, h])
  rw [hr]
  exact ⟨rfl, rfl, rfl, rfl⟩

/-- C4 witness for the amended statement. -/
theorem staleCompletionOutcome_witness :
    pathState.mapInstance = true
  ∧ ((fetchRouteResult (handleReset (fetchStart pathState))
        (RouteResponse.providerPaths [⟨[((51 : ℚ), (35 : ℚ))], 0⟩])).1.selectionState
      = SelectionState.selectingStart
  ∧ (fetchRouteResult (handleReset (fetchStart pathState))
        (RouteResponse.providerPaths [⟨[((51 : ℚ), (35 : ℚ))], 0⟩])).1.markers = []
  ∧ (fetchRouteResult (handleReset (fetchStart pathState))
        (RouteResponse.providerPaths [⟨[((51 : ℚ), (35 : ℚ))], 0⟩])).1.path
      = some ((⟨[((51 : ℚ), (35 : ℚ))], 0⟩ : RoutePath).coordinates.map (fun p => (p.2, p.1)))
  ∧ (fetchRouteResult (handleReset (fetchStart pathState))
        (RouteResponse.providerPaths [⟨[((51 : ℚ), (35 : ℚ))], 0⟩])).1.eta
      = some (mathRound ((⟨[((51 : ℚ), (35 : ℚ))], 0⟩ : RoutePath).time / 60000))) :=
  ⟨rfl, staleCompletionOutcome pathState ⟨[((51 : ℚ), (35 : ℚ))], 0⟩ [] rfl⟩

/-- C5: counterexample — the fixture string does not decode to the claimed
two-point sequence: the decoder returns three points. -/
theorem fixtureNotTwoPoints :
    decodePolyline fixtureStr ≠ [((38.5 : ℚ), (-120.2 : ℚ)), (40.7, -120.95)] := by
  intro h
  have h3 : (decodePolyline fixtureStr).length = 3 := by
    have haux : (decodePolylineAux (fixtureStr.data.map Char.toNat)).length = 3 := by
      decide
    simpa [decodePolyline] using haux
  rw [h] at h3
  simp at h3

/-- C5 (amended): the fixture decodes to the standard three-point
reference sequence, whose first two points are the two the claim names. -/
theorem fixtureDecodesThreePoints :
    decodePolyline fixtureStr
      = [((38.5 : ℚ), (-120.2 : ℚ)), (40.7, -120.95), (43.252, -126.453)] := by
  have haux : decodePolylineAux (fixtureStr.data.map Char.toNat)
      = [(3850000, -12020000), (4070000, -12095000), (4325200, -12645300)] := by
    decide
  simp only [decodePolyline, haux, List.map_cons, List.map_nil]
  norm_num [Prod.ext_iff]

/-- C6: counterexample — the one-character input of the underscore ends in
the middle of a varint group (its continuation bit is set and no
terminating character follows), yet the decoder does not fail: the
out-of-range read ends the loop and the decoder returns the point list
`[(0, 0)]` fabricated from the truncated group. -/
theorem midGroupInputDecodesQuietly :
    endsMidGroup (midGroupStr.data.map Char.toNat) = true
  ∧ decodePolyline midGroupStr = [((0 : ℚ), (0 : ℚ))] := by
  constructor
  · decide
  · have haux : decodePolylineAux (midGroupStr.data.map Char.toNat) = [(0, 0)] := by
      decide
    simp [decodePolyline, haux]

/-- C6 (amended): on every input whose final varint group is unterminated
the decoder does not raise any error: reading past the end terminates the
group as if the continuation bit were absent and the decoder still returns
a nonempty coordinate list, its last point assembled from the truncated
group. -/
theorem midGroupDecoderTotal (codes : List Nat)
    (h : endsMidGroup codes = true) :
    1 ≤ (decodePolylineAux codes).length := by
  cases codes with
  | nil => simp [endsMidGroup] at h
  | cons c cs =>
    show 1 ≤ (decodeLoop (cs.length + 1) (c :: cs) 0 0).length
    simp only [decodeLoop]
    simp

/-- C6 witness for the amended statement, on the underscore input. -/
theorem midGroupDecoderTotal_witness :
    endsMidGroup [95] = true ∧ 1 ≤ (decodePolylineAux [95]).length :=
  ⟨by decide, midGroupDecoderTotal [95] (by decide)⟩

/-- C8: from a `SearchingForMatch` state with the map present, the started
simulator reports the count sequence 1, 2, 3; completion (the flip to
`MatchFound` with the interval cleared) happens exactly at the third tick,
after which further ticks change nothing; and a reset before the third
tick pins the phase at `SelectingStart` for all later ticks, so completion
never fires. -/
theorem simulatorCountsAndStops (s : AppState) (k m : Nat)
    (h1 : s.selectionState = SelectionState.searchingForMatch)
    (h2 : s.mapInstance = true) :
    ((matchTick^[1] (startSearchEffect s)).matchedUsersCount,
      (matchTick^[2] (startSearchEffect s)).matchedUsersCount,
      (matchTick^[3] (startSearchEffect s)).matchedUsersCount) = (1, 2, 3)
  ∧ (matchTick^[k] (startSearchEffect s)).matchedUsersCount = min k 3
  ∧ (matchTick^[k] (startSearchEffect s)).matchInterval = decide (k < 3)
  ∧ (matchTick^[k] (startSearchEffect s)).selectionState
      = (if k < 3 then SelectionState.searchingForMatch else SelectionState.matchFound)
  ∧ matchTick^[3 + m] (startSearchEffect s) = matchTick^[3] (startSearchEffect s)
  ∧ (k < 3 →
      (matchTick^[m] (handleReset (matchTick^[k] (startSearchEffect s)))).selectionState
        = SelectionState.selectingStart) := by
  have hse : startSearchEffect s
      = { s with matchedUsersCount := 0, matchInterval := true } := by
    simp [startSearchEffect, h1]
  rw [hse]
  have hit := matchTick_iterate
    { s with matchedUsersCount := 0, matchInterval := true } rfl rfl
  refine ⟨?_, ?_, ?_, ?_, ?_, ?_⟩
  · rw [hit 1, hit 2, hit 3]
    norm_num
  · rw [hit k]
    split_ifs with hk <;> simp <;> omega
  · rw [hit k]
    split_ifs with hk <;> simp [hk]
  · rw [hit k]
    split_ifs with hk <;> simp [h1]
  · rw [hit (3 + m), hit 3]
    have h3 : ¬ 3 + m < 3 := by omega
    simp [h3]
  · intro hk
    rw [hit k, if_pos hk]
    have hrst : handleReset
        { s with matchedUsersCount := k, matchInterval := true }
        = clearedState := handleReset_eq _ (by simp [h2])
    rw [hrst, iterate_matchTick_stopped m clearedState rfl]
    rfl

/-- C8 witness: the busy searching state, two ticks in, four ticks after a
cancel. -/
theorem simulatorCountsAndStops_witness :
    busyState.selectionState = SelectionState.searchingForMatch
  ∧ busyState.mapInstance = true
  ∧ (((matchTick^[1] (startSearchEffect busyState)).matchedUsersCount,
      (matchTick^[2] (startSearchEffect busyState)).matchedUsersCount,
      (matchTick^[3] (startSearchEffect busyState)).matchedUsersCount) = (1, 2, 3)
  ∧ (matchTick^[2] (startSearchEffect busyState)).matchedUsersCount = min 2 3
  ∧ (matchTick^[2] (startSearchEffect busyState)).matchInterval = decide (2 < 3)
  ∧ (matchTick^[2] (startSearchEffect busyState)).selectionState
      = (if 2 < 3 then SelectionState.searchingForMatch else SelectionState.matchFound)
  ∧ matchTick^[3 + 4] (startSearchEffect busyState) = matchTick^[3] (startSearchEffect busyState)
  ∧ (2 < 3 →
      (matchTick^[4] (handleReset (matchTick^[2] (startSearchEffect busyState)))).selectionState
        = SelectionState.selectingStart)) :=
  ⟨rfl, rfl, simulatorCountsAndStops busyState 2 4 rfl rfl⟩

/-- C9: counterexample — a provider response whose only path carries zero
coordinates is not turned into a `NoRouteFound` error: the fetch stores it
as the route (a stored route with fewer than 2 coordinates), keeps the
`PathConfirmed` phase and shows no message. -/
theorem shortRouteStoredNotRejected :
    isRouteFailure (RouteResponse.providerPaths [⟨[], 0⟩]) = false
  ∧ (fetchRouteResult loadingState (RouteResponse.providerPaths [⟨[], 0⟩])).1.path
      = some []
  ∧ (fetchRouteResult loadingState (RouteResponse.providerPaths [⟨[], 0⟩])).1.selectionState
      = SelectionState.pathConfirmed
  ∧ (fetchRouteResult loadingState (RouteResponse.providerPaths [⟨[], 0⟩])).2 = [] :=
  ⟨rfl, rfl, rfl, rfl⟩

/-- C9 (amended): the route fetch validates only that the `paths` array is
nonempty: any response with at least one path is stored as the route with
exactly the coordinates the provider sent — including fewer than two —
and only transport failure, a non-success status, or an empty `paths`
array take the error path. -/
theorem routeStoredWheneverPathsNonempty (s : AppState) (route : RoutePath)
    (ps : List RoutePath) :
    (fetchRouteResult s (RouteResponse.providerPaths (route :: ps))).1.path
      = some (route.coordinates.map (fun p => (p.2, p.1)))
  ∧ (fetchRouteResult s (RouteResponse.providerPaths (route :: ps))).1.selectionState
      = s.selectionState
  ∧ (fetchRouteResult s (RouteResponse.providerPaths (route :: ps))).2 = []
  ∧ isRouteFailure (RouteResponse.providerPaths (route :: ps)) = false :=
  ⟨rfl, rfl, rfl, rfl⟩

/-- C10: the decoder performs no reads on the empty string and returns the
empty coordinate sequence. -/
theorem emptyStringDecodesEmpty : decodePolyline emptyStr = [] := rfl

/-- C7: for every finite sequence of geographic coordinates (latitudes
within 90, longitudes within 180), decoding the output of the spec's
reference encoder reproduces the original sequence with every latitude and
longitude component within 1e-5 of the original. -/
theorem decodeInvertsReferenceEncode (pts : List (ℚ × ℚ))
    (h : ∀ p ∈ pts, (-90 ≤ p.1 ∧ p.1 ≤ 90) ∧ (-180 ≤ p.2 ∧ p.2 ≤ 180)) :
    List.Forall₂
      (fun a b => |a.1 - b.1| ≤ 1 / 100000 ∧ |a.2 - b.2| ≤ 1 / 100000)
      ((decodePolylineAux (referenceEncode pts)).map
        (fun p => ((p.1 : ℚ) / 100000, (p.2 : ℚ) / 100000)))
      pts := by
  have hdec : decodePolylineAux (referenceEncode pts)
      = pts.map (fun p => (mathRound (p.1 * 100000), mathRound (p.2 * 100000))) := by
    show decodeLoop (referenceEncode pts).length
      (encodePoints 0 0 (pts.map
        (fun p => (mathRound (p.1 * 100000), mathRound (p.2 * 100000))))) 0 0 = _
    apply decodeLoop_encodePoints
    · intro q hq
      rw [List.mem_map] at hq
      obtain ⟨p, hp, rfl⟩ := hq
      obtain ⟨⟨ha1, ha2⟩, hb1, hb2⟩ := h p hp
      constructor
      · have hB := mathRound_bound (p.1 * 100000) 9000000
          (by push_cast; linarith) (by push_cast; linarith)
        simpa using hB
      · have hB := mathRound_bound (p.2 * 100000) 18000000
          (by push_cast; linarith) (by push_cast; linarith)
        simpa using hB
    · norm_num
    · norm_num
    · norm_num
    · norm_num
    · exact le_rfl
  rw [hdec, List.map_map]
  have hcomp : ((fun p : Int × Int => ((p.1 : ℚ) / 100000, (p.2 : ℚ) / 100000)) ∘
      (fun p : ℚ × ℚ => (mathRound (p.1 * 100000), mathRound (p.2 * 100000))))
      = fun p : ℚ × ℚ => (((mathRound (p.1 * 100000) : Int) : ℚ) / 100000,
          ((mathRound (p.2 * 100000) : Int) : ℚ) / 100000) := by
    funext p
    rfl
  rw [hcomp]
  exact forall₂_round_close pts

/-- C7 witness: a concrete two-point sequence inside the bounds. -/
theorem decodeInvertsReferenceEncode_witness :
    (∀ p ∈ [((38 : ℚ), (-120 : ℚ)), (40, -120)],
      (-90 ≤ p.1 ∧ p.1 ≤ 90) ∧ (-180 ≤ p.2 ∧ p.2 ≤ 180))
  ∧ List.Forall₂
      (fun a b => |a.1 - b.1| ≤ 1 / 100000 ∧ |a.2 - b.2| ≤ 1 / 100000)
      ((decodePolylineAux (referenceEncode [((38 : ℚ), (-120 : ℚ)), (40, -120)])).map
        (fun p => ((p.1 : ℚ) / 100000, (p.2 : ℚ) / 100000)))
      [((38 : ℚ), (-120 : ℚ)), (40, -120)] :=
  ⟨by decide, decodeInvertsReferenceEncode _ (by decide)⟩
